import Mathlib

/-!
Verification of the object/schema-value bridge of `avro-rs`
(`src/types.rs`, `src/ser.rs`, `src/de.rs`, `src/error.rs`).

The Rust code is shallowly embedded: the `Value` data model and the
`validate` function come from `types.rs`; the serde serializer entry
points and the struct serializer come from `ser.rs`; the deserializer
entry points and the map/struct access state machines come from `de.rs`.
Rust machine integers are modelled as `Int`/`Nat` with explicit wrapping
where the source casts; fallible Rust functions returning
`Result<_, Error>` are modelled as `Except String _` carrying the
`Error::custom` message; the one place where the source can abort
(an unchecked slice index) is modelled by a dedicated `panicked`
outcome, distinct from returned error values.
-/

namespace AvroRs

/-- The Avro intermediate representation, from `types.rs` lines 14-55.
Numeric payloads: `int` is Rust `i32`, `long` is `i64`, both modelled as
`Int`; `float`/`double` payloads are carried as their IEEE bit patterns
(no claim computes with them); `fixed`'s size and `union`'s index are
Rust `usize`, modelled as `Nat`; `enum`'s index is Rust `i32`, modelled
as `Int`; the `map` payload is a Rust `HashMap` iterated in an
unspecified but fixed order, modelled as its iteration-order entry
list. -/
inductive Value where
  | null
  | boolean (b : Bool)
  | int (n : Int)
  | long (n : Int)
  | float (bits : Nat)
  | double (bits : Nat)
  | bytes (bs : List UInt8)
  | string (s : String)
  | fixed (size : Nat) (bs : List UInt8)
  | enum (index : Int) (symbol : String)
  | union (index : Nat) (inner : Value)
  | array (items : List Value)
  | map (entries : List (String × Value))
  | record (fields : List (String × Value))

/-- Modelled from the spec: the schema model consumed by the validator
(`crate::schema` is not part of the four bridge source files). Section 6
of the spec describes it as a tree of
Null/Boolean/Int/Long/Float/Double/Bytes/String/Fixed(size)/
Enum(symbols)/Union(variant schemas)/Array(elem)/Map(value)/
Record(ordered named fields). `validate` in `types.rs` reads exactly a
record field's name and schema, so record fields are modelled as ordered
(name, schema) pairs. -/
inductive Schema where
  | null
  | boolean
  | int
  | long
  | float
  | double
  | bytes
  | string
  | fixed (size : Nat)
  | enum (symbols : List String)
  | union (variants : List Schema)
  | array (elem : Schema)
  | map (value : Schema)
  | record (fields : List (String × Schema))

/-- Modelled from the spec: `UnionSchema::variant_schema` (in
`crate::schema`, outside the four bridge files). Per spec section 4.3,
a union "matches if the schema has a variant at the stored index", and
the `types.rs` unit tests exercise it as positional lookup (index 3 into
a four-variant union selects the fourth variant schema). -/
def variant_schema (variants : List Schema) (i : Nat) : Option Schema :=
  variants.get? i

/-- The Rust cast `i as usize` applied to the `i32` enum index in
`Value::validate` (`types.rs` line 263), on a 64-bit target: two's
complement wraparound modulo 2^64. -/
def i32AsUsize (i : Int) : Nat :=
  (i % (2 : Int) ^ 64).toNat

mutual

/-- `Value::validate` from `types.rs` lines 250-293: the recursive
structural compatibility check of a `Value` against a `Schema`.
Matching the source: primitive tags match exactly; `Fixed` compares
sizes; a bare `String` against an enum schema checks membership in the
symbol list; `Enum(i, s)` checks that `symbols.get(i as usize)` is
present and equal to `s`; `Union(i, v)` looks up the variant schema at
`i` (out of range gives `false`) and recurses; arrays and maps recurse
element-wise; records require equal field counts and, positionally,
equal names and a recursively valid value. -/
def validate : Value → Schema → Bool
  | .null, .null => true
  | .boolean _, .boolean => true
  | .int _, .int => true
  | .long _, .long => true
  | .float _, .float => true
  | .double _, .double => true
  | .bytes _, .bytes => true
  | .string _, .string => true
  | .fixed n _, .fixed size => n == size
  | .string s, .enum symbols => symbols.contains s
  | .enum i s, .enum symbols =>
    ((symbols.get? (i32AsUsize i)).map (fun symbol => symbol == s)).getD false
  | .union variant_idx variant_value, .union inner =>
    match variant_schema inner variant_idx with
    | none => false
    | some vs => validate variant_value vs
  | .array items, .array inner => validateItems items inner
  | .map entries, .map inner => validateEntries entries inner
  | .record record_fields, .record fields =>
    (fields.length == record_fields.length) && validateZip fields record_fields
  | _, _ => false

/-- The `items.iter().all(|item| item.validate(inner))` loop of the
array arm of `Value::validate`, written as explicit recursion. -/
def validateItems : List Value → Schema → Bool
  | [], _ => true
  | item :: rest, inner => validate item inner && validateItems rest inner

/-- The `items.iter().all(|(_, value)| value.validate(inner))` loop of
the map arm of `Value::validate`, written as explicit recursion. -/
def validateEntries : List (String × Value) → Schema → Bool
  | [], _ => true
  | (_, value) :: rest, inner => validate value inner && validateEntries rest inner

/-- The `fields.iter().zip(record_fields.iter()).all(..)` loop of the
record arm of `Value::validate`: like `zip`, it walks the common prefix
(the surrounding length test makes the prefix total), requiring at each
position an equal field name and a value valid against that position's
schema. -/
def validateZip : List (String × Schema) → List (String × Value) → Bool
  | (sname, sschema) :: srest, (name, value) :: vrest =>
    (sname == name) && validate value sschema && validateZip srest vrest
  | _, _ => true

end

/-- `impl ToAvro for Option<T>` from `types.rs` lines 105-123, at the
`Value` level (the generic payload is taken already encoded by `T::avro`):
`None` becomes `Union(0, Null)` and `Some(v)` becomes `Union(1, v)`,
following Avro's null-first union convention. -/
def optionAvro : Option Value → Value
  | some v => .union 1 v
  | none => .union 0 .null

/-- The Rust cast `self as i64` applied to a `usize` on a 64-bit
target: values up to `i64::MAX` are preserved, larger ones wrap into
the negative range (two's complement reinterpretation). -/
def usizeAsI64 (v : Nat) : Int :=
  if v < 2 ^ 63 then (v : Int) else (v : Int) - 2 ^ 64

/-- `impl ToAvro for usize` from `types.rs` lines 87-91:
`(self as i64).avro()`, i.e. an unchecked cast wrapped in
`Value::Long` — total, with no range check. -/
def usizeAvro (v : Nat) : Value :=
  .long (usizeAsI64 v)

/-- `Serializer::serialize_i64` from `ser.rs` lines 114-116. -/
def serialize_i64 (v : Int) : Except String Value :=
  .ok (.long v)

/-- `Serializer::serialize_str` from `ser.rs` lines 154-156. -/
def serialize_str (v : String) : Except String Value :=
  .ok (.string v)

/-- `Serializer::serialize_u64` from `ser.rs` lines 134-140: values at
most `i64::MAX as u64 = 2^63 - 1` are re-serialized as `i64` (the cast
`v as i64` is the identity on that range), larger values are the encode
error `"u64 is too large"`. The argument ranges over `u64`, i.e.
naturals below `2^64`. -/
def serialize_u64 (v : Nat) : Except String Value :=
  if v ≤ 2 ^ 63 - 1 then serialize_i64 (Int.ofNat v) else .error "u64 is too large"

/-- `Serializer::serialize_none` from `ser.rs` lines 162-164:
`Ok(ToAvro::avro(None))`. -/
def serialize_none : Except String Value :=
  .ok (optionAvro none)

/-- `Serializer::serialize_some` from `ser.rs` lines 166-172: serialize
the payload (the argument is that inner serialization result), then wrap
it as `Some(v).avro()`; a payload error propagates. -/
def serialize_some (inner : Except String Value) : Except String Value :=
  inner.map (fun v => optionAvro (some v))

/-- The `SerializeStruct` state from `ser.rs` lines 26-28: the ordered
(field name, encoded value) list accumulated so far. -/
structure StructSerializer where
  fields : List (String × Value)

/-- `StructSerializer::new` from `ser.rs` lines 57-63 (the length is
only a capacity hint in the source). -/
def StructSerializer.new (_len : Nat) : StructSerializer :=
  ⟨[]⟩

/-- `SerializeStruct::serialize_field` from `ser.rs` lines 377-390:
serialize the field value (the argument is that serialization result)
and append the (name, value) pair; an error propagates. -/
def StructSerializer.serialize_field (s : StructSerializer) (name : String)
    (value : Except String Value) : Except String StructSerializer :=
  value.map (fun v => ⟨s.fields ++ [(name, v)]⟩)

/-- `SerializeStruct::end` from `ser.rs` lines 392-394: wrap the
accumulated fields as `Value::Record` (the source's `Rc<String>` field
names are plain strings here). -/
def StructSerializer.end_ (s : StructSerializer) : Except String Value :=
  .ok (.record s.fields)

/-- The test struct `Test { a: i64, b: String }` from the `ser.rs` test
module, the subject of the spec's concrete round-trip scenario. -/
structure Test where
  a : Int
  b : String
deriving DecidableEq

/-- `to_value` (`ser.rs` lines 426-429) applied to `Test`: the serde
derive for a two-field struct calls `serialize_struct("Test", 2)`, then
`serialize_field` for `a` and `b` in declaration order, then `end`. -/
def toValueTest (t : Test) : Except String Value := do
  let s := StructSerializer.new 2
  let s ← s.serialize_field "a" (serialize_i64 t.a)
  let s ← s.serialize_field "b" (serialize_str t.b)
  s.end_

/-- Outcome of a decode step in `de.rs`: a value handed to the caller's
visitor, a returned decode error (`Error::custom`), or an abort of the
process (a Rust panic, e.g. an out-of-bounds slice index). -/
inductive DeOutcome (α : Type) where
  | ok (a : α)
  | err (msg : String)
  | panicked (msg : String)

/-- `Deserializer::deserialize_enum` from `de.rs` lines 572-588, up to
the hand-off to the visitor: on `Value::Union(i, v)` the source selects
the variant name by the unchecked slice index `variants[*variant_index]`
— in range it yields the `(variant_name, variant_value)` pair wrapped
into the `EnumDeserializer`, out of range the indexing panics (aborts)
instead of returning an error value; any non-union input is the decode
error `"not an enum"`. -/
def deserialize_enum (variants : List String) (input : Value) :
    DeOutcome (String × Value) :=
  match input with
  | .union variant_index variant_value =>
    match variants.get? variant_index with
    | some variant_name => .ok (variant_name, variant_value)
    | none => .panicked "index out of bounds"
  | _ => .err "not an enum"

/-- `Deserializer::deserialize_option` from `de.rs` lines 468-484, up to
the hand-off to the visitor: `Union(0, Null)` visits none,
`Union(1, v)` visits some with `v` decoded recursively, and every other
shape — including `Union(0, w)` with `w` not `Null` — is the decode
error `"not a union"`. -/
def deserialize_option (input : Value) : Except String (Option Value) :=
  match input with
  | .union 0 .null => .ok none
  | .union 1 inner => .ok (some inner)
  | _ => .error "not a union"

/-- The `MapAccess` state for `Value::Map` from `de.rs` lines 29-32:
two independent iterators, one over the map's keys and one over its
values (`input.keys()` / `input.values()`, which traverse the same
`HashMap` in the same order). There is no pending-value cache. -/
structure MapDeserializer where
  input_keys : List String
  input_values : List Value

/-- `MapDeserializer::new` from `de.rs` lines 63-72: start both
iterators over the same entry sequence. -/
def MapDeserializer.new (input : List (String × Value)) : MapDeserializer :=
  ⟨input.map Prod.fst, input.map Prod.snd⟩

/-- `MapAccess::next_key_seed` for `MapDeserializer` (`de.rs` lines
624-636): pull the next key from the key iterator, or signal clean end
with `none`. -/
def MapDeserializer.next_key_seed (m : MapDeserializer) :
    Option String × MapDeserializer :=
  match m.input_keys with
  | key :: rest => (some key, ⟨rest, m.input_values⟩)
  | [] => (none, m)

/-- `MapAccess::next_value_seed` for `MapDeserializer` (`de.rs` lines
638-646): pull the next value from the value iterator — independent of
how many keys have been requested — or fail with
`"should not happen - too many values"` once the values are
exhausted. -/
def MapDeserializer.next_value_seed (m : MapDeserializer) :
    Except String (Value × MapDeserializer) :=
  match m.input_values with
  | value :: rest => .ok (value, ⟨m.input_keys, rest⟩)
  | [] => .error "should not happen - too many values"

/-- The `MapAccess` state for `Value::Record` from `de.rs` lines 34-37:
an iterator over the record's (field name, value) pairs plus the
explicit pending-value cache (`value: Option<&Value>`). -/
structure StructDeserializer where
  input : List (String × Value)
  value : Option Value

/-- `StructDeserializer::new` from `de.rs` lines 74-81: iterator at the
start, empty cache. -/
def StructDeserializer.new (input : List (String × Value)) : StructDeserializer :=
  ⟨input, none⟩

/-- `MapAccess::next_key_seed` for `StructDeserializer` (`de.rs` lines
652-667): advance to the next field, cache its paired value, and hand
out the field name; at the end, signal clean end with `none` (the cache
is left as is). -/
def StructDeserializer.next_key_seed (s : StructDeserializer) :
    Option String × StructDeserializer :=
  match s.input with
  | (field, value) :: rest => (some field, ⟨rest, some value⟩)
  | [] => (none, s)

/-- `MapAccess::next_value_seed` for `StructDeserializer` (`de.rs`
lines 669-677): `self.value.take()` — consume and clear the cached
value; if the cache is empty (no field request since the last value
request), fail with `"should not happen - too many values"`. -/
def StructDeserializer.next_value_seed (s : StructDeserializer) :
    Except String (Value × StructDeserializer) :=
  match s.value with
  | some value => .ok (value, ⟨s.input, none⟩)
  | none => .error "should not happen - too many values"

/-- An `i64` request against the cached field value: `de.rs` forwards
`deserialize_i64` to `deserialize_any` (lines 390-403), which visits
`visit_i64` on `Long` and `visit_i32` on `Int` (serde's `i64` visitor
widens it); every other tag ends in an error — composite tags as
`deserialize_any`'s own `"incorrect value"`, the remaining primitive
visits as the visitor's type error (collapsed here into one message). -/
def decodeAnyAsI64 (input : Value) : Except String Int :=
  match input with
  | .long n => .ok n
  | .int n => .ok n
  | _ => .error "incorrect value"

/-- A `String` request against the cached field value:
`Deserializer::deserialize_string` from `de.rs` lines 429-442 — a
`String` is visited directly, `Bytes`/`Fixed` payloads go through UTF-8
decoding (invalid UTF-8 is a decode error), anything else is
`"not a string|bytes|fixed"`. -/
def decodeAnyAsString (input : Value) : Except String String :=
  match input with
  | .string s => .ok s
  | .bytes bs | .fixed _ bs =>
    match String.fromUTF8? (ByteArray.mk (Array.mk bs)) with
    | some s => .ok s
    | none => .error "invalid utf-8 sequence"
  | _ => .error "not a string|bytes|fixed"

/-- The field-identifier step of the serde-derived `Deserialize` for
`Test`: field names map to the two known fields, anything else to the
ignored-field token (serde ignores unknown fields by default). -/
inductive TestField where
  | a
  | b
  | ignoredField

/-- The derived identifier visitor for `Test`, fed by
`StructDeserializer.next_key_seed` through the borrowed-string
deserializer of `de.rs`. -/
def testFieldFromString (s : String) : TestField :=
  if s == "a" then .a else if s == "b" then .b else .ignoredField

/-- The serde-derived `visit_map` loop for `Test`, driving
`StructDeserializer`: each field request is immediately followed by the
value request consuming the cached value (so the walk is the field list
in stored order); a known field decodes with its type's deserializer
and fills its slot, a duplicate is an error, an unknown field's value is
consumed by `deserialize_ignored_any` (which trivially succeeds, `de.rs`
lines 597-604); at the end both slots must be filled. -/
def testVisitMap : List (String × Value) → Option Int → Option String →
    Except String Test
  | [], fa, fb =>
    match fa, fb with
    | some a, some b => .ok ⟨a, b⟩
    | none, _ => .error "missing field a"
    | _, none => .error "missing field b"
  | (field, value) :: rest, fa, fb =>
    match testFieldFromString field with
    | .a =>
      match fa with
      | some _ => .error "duplicate field a"
      | none => (decodeAnyAsI64 value).bind (fun a => testVisitMap rest (some a) fb)
    | .b =>
      match fb with
      | some _ => .error "duplicate field b"
      | none => (decodeAnyAsString value).bind (fun b => testVisitMap rest fa (some b))
    | .ignoredField => testVisitMap rest fa fb

/-- `from_value::<Test>` (`de.rs` lines 758-761): `Test::deserialize`
calls `deserialize_struct` (`de.rs` lines 557-570), which requires a
`Value::Record` and drives the derived visitor over a fresh
`StructDeserializer`; any other shape is `"not a record"`. -/
def fromValueTest (input : Value) : Except String Test :=
  match input with
  | .record fields => testVisitMap fields none none
  | _ => .error "not a record"

/-! Helper lemmas shared between claim theorems. -/

/-- Enum validation of an `(index, symbol)` pair holds exactly when the
symbol list has the stored symbol at the cast index. -/
theorem enum_validate_iff (i : Int) (s : String) (symbols : List String) :
    validate (.enum i s) (.enum symbols) = true ↔
      symbols.get? (i32AsUsize i) = some s := by
  have he : validate (.enum i s) (.enum symbols)
      = ((symbols.get? (i32AsUsize i)).map (fun symbol => symbol == s)).getD false :=
    rfl
  rw [he]
  cases h : symbols.get? (i32AsUsize i) with
  | none => simp
  | some t => simp

/-- Enum validation of a bare string holds exactly when it is a listed
symbol. -/
theorem string_enum_validate_iff (s : String) (symbols : List String) :
    validate (.string s) (.enum symbols) = true ↔ s ∈ symbols := by
  have he : validate (.string s) (.enum symbols) = symbols.contains s := rfl
  rw [he]
  exact List.elem_iff

/-- The zip walk of record validation, characterized positionally. -/
theorem validateZip_iff (sfields : List (String × Schema))
    (rfields : List (String × Value)) :
    validateZip sfields rfields = true ↔
      ∀ k sf rf, sfields.get? k = some sf → rfields.get? k = some rf →
        sf.1 = rf.1 ∧ validate rf.2 sf.2 = true := by
  induction sfields generalizing rfields with
  | nil => simp [validateZip]
  | cons sf srest ih =>
    cases rfields with
    | nil =>
      obtain ⟨sname, sschema⟩ := sf
      simp [validateZip]
    | cons rf vrest =>
      obtain ⟨sname, sschema⟩ := sf
      obtain ⟨name, value⟩ := rf
      rw [validateZip]
      simp only [Bool.and_eq_true, beq_iff_eq, ih]
      constructor
      · rintro ⟨⟨hname, hval⟩, hrest⟩ k sf' rf' hs hr
        cases k with
        | zero =>
          rw [List.get?_cons_zero] at hs hr
          cases hs; cases hr
          exact ⟨hname, hval⟩
        | succ k =>
          rw [List.get?_cons_succ] at hs hr
          exact hrest k sf' rf' hs hr
      · intro h
        refine ⟨h 0 (sname, sschema) (name, value) rfl rfl,
          fun k sf' rf' hs hr => h (k + 1) sf' rf' ?_ ?_⟩
        · rw [List.get?_cons_succ]; exact hs
        · rw [List.get?_cons_succ]; exact hr

/-! Claim theorems. -/

/-- C1: the claim says that decoding `Value::Union(i, v)` as an enum
against a declared variant list of length `n` fails with a decode error
value when `i >= n`, never aborting. The code instead selects the
variant name with the unchecked index `variants[*variant_index]`
(`de.rs` line 583), which panics out of range: at the failing input
`Union(1, Null)` against the one-variant list `["A"]`, the decode
aborts rather than returning an error value, while the in-range index
`0` is served normally and a non-union input does get an error
value. -/
theorem deserialize_enum_out_of_range_aborts :
    deserialize_enum ["A"] (.union 1 .null) = .panicked "index out of bounds"
    ∧ (∀ m, deserialize_enum ["A"] (.union 1 .null) ≠ .err m)
    ∧ deserialize_enum ["A"] (.union 0 .null) = .ok ("A", .null)
    ∧ deserialize_enum ["A"] (.long 3) = .err "not an enum" :=
  ⟨rfl, fun _ h => DeOutcome.noConfusion h, rfl, rfl⟩

/-- C2 counterexample: the claim says an `Enum(i, s)` value validates
whenever `s` is a listed symbol, regardless of the stored index `i`.
At the concrete input `Enum(1, "spades")` against the symbol list
`["spades", "hearts", "diamonds", "clubs"]`, the symbol is listed yet
`validate` returns `false`, because the code compares `s` against the
symbol at position `i` (`types.rs` lines 262-265). -/
theorem validate_enum_ignores_index_cex :
    (["spades", "hearts", "diamonds", "clubs"] : List String).contains "spades" = true
    ∧ validate (.enum 1 "spades")
        (.enum ["spades", "hearts", "diamonds", "clubs"]) = false := by
  constructor <;> decide

/-- C2 amended: for `Value::Enum(i, s)` against an enum schema,
`validate` returns true exactly when the schema's symbol at position
`i` (after the `i32` to `usize` cast) exists and equals `s` — the
stored index is decisive, not mere membership; a bare `Value::String(s)`
still validates exactly when `s` is a listed symbol. -/
theorem validate_enum_positional_amended (i : Int) (s : String)
    (symbols : List String) :
    (validate (.enum i s) (.enum symbols) = true ↔
      symbols.get? (i32AsUsize i) = some s)
    ∧ (validate (.string s) (.enum symbols) = true ↔ s ∈ symbols) :=
  ⟨enum_validate_iff i s symbols, string_enum_validate_iff s symbols⟩

/-- C3: for `Value::Enum(i, s)` against an enum schema, `validate`
returns true iff the symbol at position `i` of the schema's symbol list
exists and equals `s`; in particular it returns false when `s` is
listed but the symbol at position `i` is not `s`; and a bare
`Value::String(s)` validates iff `s` is a listed symbol. -/
theorem validate_enum_matching_position (i : Int) (s : String)
    (symbols : List String) :
    (validate (.enum i s) (.enum symbols) = true ↔
      symbols.get? (i32AsUsize i) = some s)
    ∧ (s ∈ symbols → symbols.get? (i32AsUsize i) ≠ some s →
        validate (.enum i s) (.enum symbols) = false)
    ∧ (validate (.string s) (.enum symbols) = true ↔ s ∈ symbols) := by
  refine ⟨enum_validate_iff i s symbols, fun _ hne => ?_,
    string_enum_validate_iff s symbols⟩
  cases h : validate (.enum i s) (.enum symbols) with
  | false => rfl
  | true => exact absurd ((enum_validate_iff i s symbols).1 h) hne

/-- Witness for C3 at the `types.rs` test data: `"spades"` is listed
but sits at schema index 0, so `Enum(1, "spades")` does not validate. -/
theorem validate_enum_matching_position_witness :
    validate (.enum 1 "spades")
      (.enum ["spades", "hearts", "diamonds", "clubs"]) = false :=
  (validate_enum_matching_position 1 "spades"
    ["spades", "hearts", "diamonds", "clubs"]).2.1 (by decide) (by decide)

/-- C4 counterexample: the claim says that during map decoding,
requesting a value without a preceding key request fails with a decode
error. On the one-entry map `{"k": Null}` the fresh `MapDeserializer`
serves a value request immediately — `next_value_seed` pulls from its
own value iterator with no pending-value cache (`de.rs` lines 638-646)
— returning the first value, not an error. -/
theorem map_value_without_key_cex :
    MapDeserializer.next_value_seed (MapDeserializer.new [("k", .null)])
      = .ok (.null, ⟨["k"], []⟩)
    ∧ ∀ m, MapDeserializer.next_value_seed (MapDeserializer.new [("k", .null)])
        ≠ .error m :=
  ⟨rfl, fun _ h => Except.noConfusion h⟩

/-- C4 amended: struct decoding enforces the lockstep — a value request
finding an empty pending-value cache (no field request since the last
value request, or fields exhausted) is the fatal decode error, a field
request caches its paired value, and a value request consumes and clears
the cache; map decoding instead draws keys and values from two
independent iterators, so a value request without a preceding key
request succeeds while undelivered values remain, and only requesting
more values than there are entries fails with the decode error. -/
theorem decode_lockstep_struct_map (sd : StructDeserializer)
    (md : MapDeserializer) :
    (sd.value = none →
      StructDeserializer.next_value_seed sd
        = .error "should not happen - too many values")
    ∧ (∀ f v rest, sd.input = (f, v) :: rest →
        StructDeserializer.next_key_seed sd = (some f, ⟨rest, some v⟩))
    ∧ (∀ v, sd.value = some v →
        StructDeserializer.next_value_seed sd = .ok (v, ⟨sd.input, none⟩))
    ∧ (md.input_values = [] →
        MapDeserializer.next_value_seed md
          = .error "should not happen - too many values")
    ∧ (∀ v rest, md.input_values = v :: rest →
        MapDeserializer.next_value_seed md = .ok (v, ⟨md.input_keys, rest⟩)) := by
  obtain ⟨sinput, svalue⟩ := sd
  obtain ⟨mkeys, mvalues⟩ := md
  refine ⟨fun h => ?_, fun f v rest h => ?_, fun v h => ?_, fun h => ?_,
    fun v rest h => ?_⟩
  · subst h; rfl
  · subst h; rfl
  · subst h; rfl
  · subst h; rfl
  · subst h; rfl

/-- Witness for C4's amended claim: on the one-field record
`[("k", Null)]`, a fresh struct deserializer rejects an immediate value
request, while a field request hands out `"k"` and caches `Null`. -/
theorem decode_lockstep_struct_map_witness :
    StructDeserializer.next_value_seed (StructDeserializer.new [("k", .null)])
      = .error "should not happen - too many values"
    ∧ StructDeserializer.next_key_seed (StructDeserializer.new [("k", .null)])
      = (some "k", ⟨[], some .null⟩) :=
  ⟨(decode_lockstep_struct_map (StructDeserializer.new [("k", .null)])
      (MapDeserializer.new [])).1 rfl,
   (decode_lockstep_struct_map (StructDeserializer.new [("k", .null)])
      (MapDeserializer.new [])).2.1 "k" .null [] rfl⟩

/-- C5: the optional convention — encoding maps `None` to
`Union(0, Null)` and `Some(x)` to `Union(1, encode(x))` (both through
`ToAvro` and through `serialize_none`/`serialize_some`); decoding
accepts exactly `Union(0, Null)` as absent and `Union(1, v)` as present
with `v` decoded recursively, and any other shape — including
`Union(0, w)` with `w` not `Null` — is the decode error. -/
theorem option_union_convention (x v w : Value) :
    optionAvro none = .union 0 .null
    ∧ optionAvro (some x) = .union 1 x
    ∧ serialize_none = .ok (.union 0 .null)
    ∧ serialize_some (.ok x) = .ok (.union 1 x)
    ∧ deserialize_option (.union 0 .null) = .ok none
    ∧ deserialize_option (.union 1 v) = .ok (some v)
    ∧ (w ≠ .union 0 .null → (∀ u, w ≠ .union 1 u) →
        deserialize_option w = .error "not a union") := by
  refine ⟨rfl, rfl, rfl, rfl, rfl, rfl, fun h0 h1 => ?_⟩
  cases w with
  | union i inner =>
    obtain _ | _ | n := i
    · cases inner <;> first | rfl | exact absurd rfl h0
    · exact absurd rfl (h1 inner)
    · rfl
  | null => rfl
  | boolean b => rfl
  | int n => rfl
  | long n => rfl
  | float bits => rfl
  | double bits => rfl
  | bytes bs => rfl
  | string s => rfl
  | fixed n bs => rfl
  | enum i s => rfl
  | array items => rfl
  | map entries => rfl
  | record fields => rfl

/-- Witness for C5: a non-union value as an optional is the decode
error. -/
theorem option_union_convention_witness :
    deserialize_option (.boolean true) = .error "not a union" :=
  (option_union_convention .null .null (.boolean true)).2.2.2.2.2.2
    (fun h => Value.noConfusion h) (fun _ h => Value.noConfusion h)

/-- C6: a record validates against a record schema iff the field counts
are equal and at every position the stored field name equals the schema
field name and the stored value validates against that position's
schema; in particular, for a two-field schema with distinct field
names, the record listing those two fields in swapped order never
validates, whatever the values. -/
theorem validate_record_positional (rfields : List (String × Value))
    (sfields : List (String × Schema)) :
    (validate (.record rfields) (.record sfields) = true ↔
      (sfields.length = rfields.length ∧
        ∀ k sf rf, sfields.get? k = some sf → rfields.get? k = some rf →
          sf.1 = rf.1 ∧ validate rf.2 sf.2 = true))
    ∧ (∀ n1 s1 n2 s2 v1 v2, sfields = [(n1, s1), (n2, s2)] → n1 ≠ n2 →
        validate (.record [(n2, v2), (n1, v1)]) (.record sfields) = false) := by
  constructor
  · have he : validate (.record rfields) (.record sfields)
        = ((sfields.length == rfields.length) && validateZip sfields rfields) :=
      rfl
    rw [he, Bool.and_eq_true, beq_iff_eq, validateZip_iff]
  · rintro n1 s1 n2 s2 v1 v2 rfl hne
    have he : validate (.record [(n2, v2), (n1, v1)])
          (.record [(n1, s1), (n2, s2)])
        = (((n1 == n2) && validate v2 s1)
            && validateZip [(n2, s2)] [(n1, v1)]) :=
      rfl
    have hb : (n1 == n2) = false := beq_eq_false_iff_ne.mpr hne
    rw [he, hb]
    simp

/-- Witness for C6 at the spec's two-field scenario: swapping the
fields of the valid record `[("a", Long 42), ("b", String "foo")]`
makes validation fail. -/
theorem validate_record_positional_witness :
    validate (.record [("b", .string "foo"), ("a", .long 42)])
      (.record [("a", .long), ("b", .string)]) = false :=
  (validate_record_positional [("a", .long 42), ("b", .string "foo")]
    [("a", .long), ("b", .string)]).2 "a" .long "b" .string (.long 42)
    (.string "foo") rfl (by decide)

/-- C7: a union value validates against a union schema iff the schema
has a variant at the stored index and the inner value validates against
that variant's schema; an out-of-range index yields `false` — as a
returned boolean, never a fault (`validate` is a total function). -/
theorem validate_union_indexed (i : Nat) (v : Value)
    (variants : List Schema) :
    (validate (.union i v) (.union variants) = true ↔
      ∃ vs, variant_schema variants i = some vs ∧ validate v vs = true)
    ∧ (variants.length ≤ i → validate (.union i v) (.union variants) = false) := by
  have he : validate (.union i v) (.union variants)
      = (match variant_schema variants i with
         | none => false
         | some vs => validate v vs) :=
    rfl
  constructor
  · rw [he]
    cases h : variant_schema variants i with
    | none => simp
    | some vs => simp
  · intro hlen
    have hn : variant_schema variants i = none := by
      unfold variant_schema
      exact List.get?_eq_none.mpr hlen
    rw [he, hn]

/-- Witness for C7: index 3 into a one-variant union schema is out of
range and validation returns `false`. -/
theorem validate_union_indexed_witness :
    validate (.union 3 .null) (.union [.null]) = false :=
  (validate_union_indexed 3 .null [.null]).2 (by decide)

/-- C8: serializing an unsigned 64-bit value fails with an encode error
when it exceeds `i64::MAX = 2^63 - 1`, and yields `Value::Long` of the
same numeric value when in range. -/
theorem serialize_u64_range_check (v : Nat) (hv : v < 2 ^ 64) :
    (v ≤ 2 ^ 63 - 1 → serialize_u64 v = .ok (.long (Int.ofNat v)))
    ∧ (2 ^ 63 - 1 < v → serialize_u64 v = .error "u64 is too large") := by
  constructor
  · intro h
    unfold serialize_u64
    rw [if_pos h]
    rfl
  · intro h
    unfold serialize_u64
    rw [if_neg (by omega)]

/-- Witness for C8: 27 encodes as `Long(27)`, `2^63` is the encode
error. -/
theorem serialize_u64_range_check_witness :
    serialize_u64 27 = .ok (.long 27)
    ∧ serialize_u64 (2 ^ 63) = .error "u64 is too large" :=
  ⟨(serialize_u64_range_check 27 (by norm_num)).1 (by norm_num),
   (serialize_u64_range_check (2 ^ 63) (by norm_num)).2 (by norm_num)⟩

/-- C9: serializing the struct `Test { a: 27 as i64, b: "foo" }`
yields `Record([("a", Long(27)), ("b", String("foo"))])` with fields in
declaration order, and decoding that `Value` back into `Test`
reproduces the original struct — and the same round trip holds for
every `a` and `b`. -/
theorem test_struct_roundtrip :
    toValueTest ⟨27, "foo"⟩
      = .ok (.record [("a", .long 27), ("b", .string "foo")])
    ∧ fromValueTest (.record [("a", .long 27), ("b", .string "foo")])
      = .ok ⟨27, "foo"⟩
    ∧ ∀ (a : Int) (b : String),
        toValueTest ⟨a, b⟩ = .ok (.record [("a", .long a), ("b", .string b)])
        ∧ fromValueTest (.record [("a", .long a), ("b", .string b)])
          = .ok ⟨a, b⟩ :=
  ⟨rfl, rfl, fun _ _ => ⟨rfl, rfl⟩⟩

/-- C10: the `ToAvro` conversion of a `usize` is total — always
`Long(v as i64)` with no range check — so an in-range value is
preserved while a value above `i64::MAX` silently wraps to a negative
`Long`; the serde path `serialize_u64` rejects that same value with an
encode error. -/
theorem usize_avro_unchecked_wrap (v : Nat) (hv : v < 2 ^ 64) :
    usizeAvro v = .long (usizeAsI64 v)
    ∧ (v ≤ 2 ^ 63 - 1 → usizeAvro v = .long (Int.ofNat v))
    ∧ (2 ^ 63 - 1 < v →
        usizeAvro v = .long (Int.ofNat v - 2 ^ 64)
        ∧ usizeAsI64 v < 0
        ∧ serialize_u64 v = .error "u64 is too large") := by
  refine ⟨rfl, fun h => ?_, fun h => ?_⟩
  · unfold usizeAvro usizeAsI64
    rw [if_pos (by omega)]
    rfl
  · have hge : ¬ v < 2 ^ 63 := by omega
    have hcast : (v : Int) < 2 ^ 64 := by exact_mod_cast hv
    refine ⟨?_, ?_, ?_⟩
    · unfold usizeAvro usizeAsI64
      rw [if_neg hge]
      rfl
    · unfold usizeAsI64
      rw [if_neg hge]
      omega
    · unfold serialize_u64
      rw [if_neg (by omega)]

/-- Witness for C10: `2^64 - 1` (the `usize` for `-1`) wraps to
`Long(-1)` through `ToAvro` while `serialize_u64` rejects it. -/
theorem usize_avro_unchecked_wrap_witness :
    usizeAvro (2 ^ 64 - 1) = .long (-1)
    ∧ usizeAsI64 (2 ^ 64 - 1) < 0
    ∧ serialize_u64 (2 ^ 64 - 1) = .error "u64 is too large" := by
  have h := (usize_avro_unchecked_wrap (2 ^ 64 - 1) (by norm_num)).2.2 (by norm_num)
  have harg : Int.ofNat (2 ^ 64 - 1) - 2 ^ 64 = -1 := by norm_num
  exact ⟨by rw [h.1, harg], h.2.1, h.2.2⟩

end AvroRs
